import Mathlib

/-!
Verification of the multi-source terminal chat agent (hiring-challenge-alpha).

The agent routes natural-language questions to three capability providers:
a SQLite-backed database tool, a document corpus search, and a user-approved
shell-command tool, orchestrated by a tool-calling agent loop.

Strings are modelled as `List Char` (`Str`), so that every predicate is
decidable and every definition executable.  The JavaScript string methods
used by the source (`toLowerCase`, `trim`, `startsWith`, `includes`,
global regex counting, `Array.prototype.join`) are embedded below as plain
recursive functions on `List Char`.
-/

abbrev Str := List Char

/-- JS `String.prototype.toLowerCase` restricted to the ASCII range used here. -/
def toLowerStr (s : Str) : Str := s.map Char.toLower

/-- JS `String.prototype.trim`: drop whitespace from both ends. -/
def trimStr (s : Str) : Str :=
  ((s.dropWhile Char.isWhitespace).reverse.dropWhile Char.isWhitespace).reverse

/-- JS `String.prototype.startsWith` on char lists. -/
def startsWithL : Str → Str → Bool
  | _, [] => true
  | [], _ :: _ => false
  | a :: as, b :: bs => a == b && startsWithL as bs

/-- JS `String.prototype.includes` on char lists: `pat` occurs somewhere in `s`. -/
def containsL : Str → Str → Bool
  | [], pat => startsWithL [] pat
  | c :: rest, pat => startsWithL (c :: rest) pat || containsL rest pat

/-- Decimal rendering of a natural number, as JS template interpolation does. -/
def natToStr (n : Nat) : Str := Nat.toDigits 10 n

/-- JS `Array.prototype.join` with separator. -/
def joinSep (sep : Str) : List Str → Str
  | [] => []
  | [p] => p
  | p :: q :: ps => p ++ sep ++ joinSep sep (q :: ps)

/-- Concatenation of a list of strings (JS `+=` accumulation over a loop). -/
def catStr : List Str → Str
  | [] => []
  | p :: ps => p ++ catStr ps

theorem catStr_append (a b : List Str) : catStr (a ++ b) = catStr a ++ catStr b := by
  induction a with
  | nil => simp [catStr]
  | cons x xs ih => simp [catStr, ih]

theorem startsWithL_trans_y (s : Str) (h : startsWithL s ("yes".toList) = true) :
    startsWithL s ("y".toList) = true := by
  match s with
  | [] => exact absurd h (by decide)
  | c :: cs =>
    rw [show ("yes".toList) = 'y' :: 'e' :: 's' :: [] from rfl] at h
    simp only [startsWithL, Bool.and_eq_true] at h
    rw [show ("y".toList) = 'y' :: [] from rfl]
    simp [startsWithL, h.1]

/-! ## Command Execution Provider — `src/src/tools/terminal-tool.js`

`TerminalTool.isCommandSafe` checks a fixed dangerous blocklist first
(substring match on the lowercased, trimmed command) and then requires the
command to start with a safe command or to mention a safe URL. -/

def safeCommands : List Str :=
  ["curl".toList, "wget".toList, "date".toList, "time".toList, "echo".toList, "cat".toList,
   "ls".toList, "dir".toList, "pwd".toList, "whoami".toList, "uname".toList, "systeminfo".toList,
   "head".toList, "tail".toList, "grep".toList, "find".toList, "which".toList, "where".toList]

def safeUrls : List Str :=
  ["wttr.in".toList, "ipinfo.io".toList, "api.exchangerate-api.com".toList,
   "feeds.bbci.co.uk".toList, "api.duckduckgo.com".toList, "httpbin.org".toList]

def dangerousCommands : List Str :=
  ["rm".toList, "del".toList, "rmdir".toList, "rd".toList, "format".toList, "fdisk".toList,
   "kill".toList, "taskkill".toList, "shutdown".toList, "reboot".toList, "halt".toList,
   "chmod".toList, "chown".toList, "su".toList, "sudo".toList, "passwd".toList,
   "nc".toList, "netcat".toList, "telnet".toList, "ssh".toList, "ftp".toList,
   "wget -O".toList, "curl -o".toList, ">".toList, ">>".toList, "|".toList, "&".toList,
   ";".toList]

/-- `command.toLowerCase().trim()` as computed at the top of `isCommandSafe`. -/
def cmdNorm (command : Str) : Str := trimStr (toLowerStr command)

/-- `TerminalTool.isCommandSafe` (terminal-tool.js lines 84-121): reject if any
dangerous token occurs in the normalized command; otherwise accept only if the
command starts with a safe command or mentions a safe URL. -/
def isCommandSafe (command : Str) : Bool :=
  let cmd := cmdNorm command
  if dangerousCommands.any (fun d => containsL cmd (toLowerStr d)) then
    false
  else
    safeCommands.any (fun s => startsWithL cmd s) || safeUrls.any (fun u => containsL cmd u)

/-- `askUserApproval` (terminal-tool.js lines 125-148) resolves
`answer.toLowerCase().startsWith(yCharacter)`. -/
def approvalOf (answer : Str) : Bool := startsWithL (toLowerStr answer) ("y".toList)

/-- Observable events of one `executeCommand` call: the interactive approval
prompt shown for a command, and the spawning of a subprocess for a command. -/
inductive Ev where
  | prompt (cmd : Str)
  | spawn (cmd : Str)
deriving DecidableEq, Repr

/-- Outcome of the `execAsync` subprocess call (environment oracle). -/
inductive ExecOutcome where
  | ok (stdout : Str) (stderr : Str)
  | fail (msg : Str)
deriving DecidableEq, Repr

def cmdRejectedMsg : Str :=
  "Command rejected for security reasons. Only safe read-only commands for external data are allowed.".toList

def cancelMsg : Str := "Command execution was cancelled by user.".toList

/-- `TerminalTool.executeCommand` (terminal-tool.js lines 50-82).  `renderOutput`
abstracts `formatCommandOutput` (pure output cosmetics, lines 150-224) and
`execRes` the subprocess outcome; `answer` is the reply typed at the approval
prompt.  Returns the observable event trace and the response string. -/
def executeCommandM (renderOutput : Str → Str → Str) (execRes : ExecOutcome)
    (cmd answer : Str) : List Ev × Str :=
  if isCommandSafe cmd then
    if approvalOf answer then
      ([Ev.prompt cmd, Ev.spawn cmd],
       match execRes with
       | ExecOutcome.ok stdout _ => renderOutput stdout cmd
       | ExecOutcome.fail msg =>
         "Command execution failed: ".toList ++ msg ++ ". Try a different approach or command.".toList)
    else
      ([Ev.prompt cmd], cancelMsg)
  else
    ([], cmdRejectedMsg)

/-- The constructor sets `this.pendingApproval = null` (terminal-tool.js line
43) and no other line of the file reads or writes it; `executeCommandM` is
therefore independent of it.  This wrapper threads that (inert) state to make
sequences of calls explicit. -/
def executeCommandSt (renderOutput : Str → Str → Str) (execRes : ExecOutcome)
    (pendingApproval : Option Str) (cmd answer : Str) :
    (List Ev × Str) × Option Str :=
  (executeCommandM renderOutput execRes cmd answer, pendingApproval)

/-- Number of subprocess spawns in an event trace. -/
def spawnCount (evs : List Ev) : Nat :=
  evs.countP (fun e => match e with | Ev.spawn _ => true | _ => false)

/-- Boolean normal form of `isCommandSafe`. -/
theorem isCommandSafe_eq (command : Str) :
    isCommandSafe command =
      (!(dangerousCommands.any (fun d => containsL (cmdNorm command) (toLowerStr d))) &&
        (safeCommands.any (fun s => startsWithL (cmdNorm command) s)
          || safeUrls.any (fun u => containsL (cmdNorm command) u))) := by
  unfold isCommandSafe
  by_cases hb : dangerousCommands.any (fun d => containsL (cmdNorm command) (toLowerStr d)) = true
  · simp [hb]
  · simp only [Bool.not_eq_true] at hb
    simp [hb]

/-- Claim C2 (confirmed): `isCommandSafe` returns false whenever the command
contains any dangerous-blocklist token (blocklist checked first, taking
precedence), and returns true exactly when no blocklist token occurs and the
command either starts with a safe-command token or contains a safe-domain
host; commands meeting neither bar are rejected (default-deny). -/
theorem isCommandSafe_blocklist_first (command : Str) :
    ((∃ d ∈ dangerousCommands, containsL (cmdNorm command) (toLowerStr d) = true) →
      isCommandSafe command = false)
    ∧ (isCommandSafe command = true ↔
        (∀ d ∈ dangerousCommands, containsL (cmdNorm command) (toLowerStr d) = false)
        ∧ ((∃ s ∈ safeCommands, startsWithL (cmdNorm command) s = true)
           ∨ (∃ u ∈ safeUrls, containsL (cmdNorm command) u = true))) := by
  have key : isCommandSafe command = true ↔
      (∀ d ∈ dangerousCommands, containsL (cmdNorm command) (toLowerStr d) = false)
      ∧ ((∃ s ∈ safeCommands, startsWithL (cmdNorm command) s = true)
         ∨ (∃ u ∈ safeUrls, containsL (cmdNorm command) u = true)) := by
    rw [isCommandSafe_eq]
    simp [Bool.and_eq_true, Bool.or_eq_true, List.any_eq_true,
      Bool.not_eq_true', List.any_eq_false]
  refine ⟨?_, key⟩
  rintro ⟨d, hd, hc⟩
  cases hsafe : isCommandSafe command with
  | false => rfl
  | true =>
    rcases key.mp hsafe with ⟨hall, -⟩
    rw [hall d hd] at hc
    cases hc

theorem isCommandSafe_blocklist_first_witness :
    (∃ d ∈ dangerousCommands,
        containsL (cmdNorm ("sudo rm -rf /".toList)) (toLowerStr d) = true)
    ∧ isCommandSafe ("sudo rm -rf /".toList) = false :=
  ⟨by decide, (isCommandSafe_blocklist_first ("sudo rm -rf /".toList)).1 (by decide)⟩
/-- Claim C7 (counterexample): the reply consisting of the single letter y is
not yes-prefixed, yet `askUserApproval` treats it as approval, so "any reply
that is not yes-prefixed is a denial" fails on the code. -/
theorem approval_yes_counterexample :
    approvalOf ("y".toList) = true
    ∧ startsWithL (toLowerStr ("y".toList)) ("yes".toList) = false := by decide

/-- Claim C7 (amended): a reply is treated as approval exactly when its
lowercased form starts with the letter y; in particular every yes-prefixed
reply (case-insensitively) is approved, and every reply not starting with
y or Y is treated as a denial. -/
theorem approval_y_amended (answer : Str) :
    (approvalOf answer = true ↔ startsWithL (toLowerStr answer) ("y".toList) = true)
    ∧ (startsWithL (toLowerStr answer) ("yes".toList) = true → approvalOf answer = true) :=
  ⟨Iff.rfl, fun h => startsWithL_trans_y _ h⟩

theorem approval_y_amended_witness :
    startsWithL (toLowerStr ("Yes, run it".toList)) ("yes".toList) = true
    ∧ approvalOf ("Yes, run it".toList) = true :=
  ⟨by decide, (approval_y_amended ("Yes, run it".toList)).2 (by decide)⟩

/-- Claim C3 (confirmed): `executeCommand` never spawns a subprocess for a
command the user has not approved in the current call: every spawn event is
of the exact incoming command, happens only when the safety check passed and
the prompt reply was affirmative, and is preceded by the approval prompt for
that same command; a command rejected by the safety check yields the
rejection message with no prompt and no spawn; and a denied prompt yields the
cancellation message with no spawn. -/
theorem executeCommand_approval_gate (renderOutput : Str → Str → Str)
    (execRes : ExecOutcome) (cmd answer : Str) :
    (∀ c, Ev.spawn c ∈ (executeCommandM renderOutput execRes cmd answer).1 →
        c = cmd ∧ isCommandSafe cmd = true ∧ approvalOf answer = true
          ∧ Ev.prompt c ∈ (executeCommandM renderOutput execRes cmd answer).1)
    ∧ (isCommandSafe cmd = false →
        executeCommandM renderOutput execRes cmd answer = ([], cmdRejectedMsg))
    ∧ (isCommandSafe cmd = true → approvalOf answer = false →
        executeCommandM renderOutput execRes cmd answer = ([Ev.prompt cmd], cancelMsg)) := by
  refine ⟨?_, ?_, ?_⟩
  · intro c hc
    by_cases hs : isCommandSafe cmd
    · by_cases ha : approvalOf answer
      · simp only [executeCommandM, hs, ha, if_true] at hc
        simp only [List.mem_cons, List.not_mem_nil, or_false] at hc
        rcases hc with hc | hc
        · exact Ev.noConfusion hc
        · injection hc with h
          subst h
          refine ⟨rfl, hs, ha, ?_⟩
          simp [executeCommandM, hs, ha]
      · have ha' : approvalOf answer = false := by simpa using ha
        simp only [executeCommandM, hs, ha', if_true, Bool.false_eq_true, if_false] at hc
        simp only [List.mem_singleton] at hc
        exact Ev.noConfusion hc
    · have hs' : isCommandSafe cmd = false := by simpa using hs
      simp only [executeCommandM, hs', Bool.false_eq_true, if_false] at hc
      exact absurd hc (List.not_mem_nil _)
  · intro h
    simp [executeCommandM, h]
  · intro hs ha
    simp [executeCommandM, hs, ha]

theorem executeCommand_approval_gate_witness :
    isCommandSafe ("date".toList) = true
    ∧ approvalOf ("n".toList) = false
    ∧ executeCommandM (fun out _ => out) (ExecOutcome.ok ("x".toList) []) ("date".toList)
        ("n".toList) = ([Ev.prompt ("date".toList)], cancelMsg) :=
  ⟨by decide, by decide,
    (executeCommand_approval_gate (fun out _ => out) (ExecOutcome.ok ("x".toList) [])
      ("date".toList) ("n".toList)).2.2 (by decide) (by decide)⟩

/-- Claim C4 (counterexample): after approval is granted for the command
date (first call, which spawns it), proposing the changed command string
uname is not refused with a mismatch error — the tool issues a fresh prompt
and, on approval, spawns the new string.  The pending-approval state is
never consulted: both calls behave identically whatever it holds. -/
theorem approval_mismatch_counterexample :
    (Ev.spawn ("date".toList) ∈
      (executeCommandSt (fun out _ => out) (ExecOutcome.ok ("out".toList) [])
        none ("date".toList) ("y".toList)).1.1)
    ∧ (Ev.spawn ("uname".toList) ∈
      (executeCommandSt (fun out _ => out) (ExecOutcome.ok ("out".toList) [])
        (executeCommandSt (fun out _ => out) (ExecOutcome.ok ("out".toList) [])
          none ("date".toList) ("y".toList)).2
        ("uname".toList) ("y".toList)).1.1) := by decide

/-- Claim C4 (amended): each approval prompt licenses at most one execution
of exactly the prompted command string, within the same call: a call spawns
at most once, only the exact incoming command, only when that call received
an affirmative reply, and every spawned command was itself prompted in that
call.  A call without an affirmative reply spawns nothing, so two calls with
the same command of which only the first is approved spawn at most once in
total.  Calls are independent of the vestigial pending-approval field, which
is initialized to null and never read or written again: a changed command is
never run under an earlier approval, but neither is a mismatch error
returned — the new command simply receives its own fresh prompt. -/
theorem approval_per_call (renderOutput : Str → Str → Str) (execRes : ExecOutcome)
    (cmd answer : Str) :
    spawnCount (executeCommandM renderOutput execRes cmd answer).1 ≤ 1
    ∧ (∀ c, Ev.spawn c ∈ (executeCommandM renderOutput execRes cmd answer).1 →
        c = cmd ∧ approvalOf answer = true
          ∧ Ev.prompt c ∈ (executeCommandM renderOutput execRes cmd answer).1)
    ∧ (approvalOf answer = false →
        ∀ c, Ev.spawn c ∉ (executeCommandM renderOutput execRes cmd answer).1)
    ∧ (∀ answer2, approvalOf answer2 = false →
        spawnCount (executeCommandM renderOutput execRes cmd answer).1
          + spawnCount (executeCommandM renderOutput execRes cmd answer2).1 ≤ 1)
    ∧ (∀ pendingApproval,
        executeCommandSt renderOutput execRes pendingApproval cmd answer
          = (executeCommandM renderOutput execRes cmd answer, pendingApproval)) := by
  have gate := executeCommand_approval_gate renderOutput execRes cmd answer
  have count_le : ∀ (b : Str), spawnCount (executeCommandM renderOutput execRes cmd b).1 ≤ 1 := by
    intro b
    by_cases hs : isCommandSafe cmd
    · by_cases ha : approvalOf b
      · simp [executeCommandM, hs, ha, spawnCount, List.countP_cons]
      · have ha' : approvalOf b = false := by simpa using ha
        simp [executeCommandM, hs, ha', spawnCount, List.countP_cons]
    · have hs' : isCommandSafe cmd = false := by simpa using hs
      simp [executeCommandM, hs', spawnCount]
  have no_spawn : ∀ (b : Str), approvalOf b = false →
      spawnCount (executeCommandM renderOutput execRes cmd b).1 = 0 := by
    intro b hb
    by_cases hs : isCommandSafe cmd
    · simp [executeCommandM, hs, hb, spawnCount, List.countP_cons]
    · have hs' : isCommandSafe cmd = false := by simpa using hs
      simp [executeCommandM, hs', spawnCount]
  refine ⟨count_le answer, ?_, ?_, ?_, fun _ => rfl⟩
  · intro c hc
    rcases gate.1 c hc with ⟨h1, -, h3, h4⟩
    exact ⟨h1, h3, h4⟩
  · intro ha c hc
    rcases gate.1 c hc with ⟨-, -, h3, -⟩
    rw [ha] at h3
    cases h3
  · intro answer2 h2
    have ha := count_le answer
    have hb := no_spawn answer2 h2
    omega

theorem approval_per_call_witness :
    approvalOf ("no".toList) = false
    ∧ Ev.spawn ("date".toList) ∉
        (executeCommandM (fun out _ => out) (ExecOutcome.ok ("x".toList) [])
          ("date".toList) ("no".toList)).1 :=
  ⟨by decide,
    (approval_per_call (fun out _ => out) (ExecOutcome.ok ("x".toList) [])
      ("date".toList) ("no".toList)).2.2.1 (by decide) ("date".toList)⟩

/-! ## Structured-Query Provider — `src/src/tools/database-tool.js`
and the alternative `SqliteDataSource` implementation.

Rows returned by `db.all` are JS objects; they are modelled as associative
lists from column name to a cell value.  JS `value !== null && value !== ''`
filtering and `${value}` rendering are embedded on a small value type that
covers the cell shapes these formatters distinguish. -/

inductive Value where
  | num (n : Nat)
  | str (s : Str)
  | null
deriving DecidableEq, Repr

abbrev Row := List (Str × Value)

/-- JS template interpolation of a cell value. -/
def renderValue : Value → Str
  | Value.num n => natToStr n
  | Value.str s => s
  | Value.null => "null".toList

/-- JS `value !== null && value !== ''` (the entry filter in both formatters). -/
def keepValue : Value → Bool
  | Value.null => false
  | Value.str s => !s.isEmpty
  | Value.num _ => true

/-- One numbered result line: the kept `key: value` fields joined by `sep`. -/
def rowFields (sep : Str) (r : Row) : Str :=
  joinSep sep ((r.filter (fun kv => keepValue kv.2)).map
    (fun kv => kv.1 ++ ": ".toList ++ renderValue kv.2))

/-- The numbered row block (`forEach` with index), starting at index `i`. -/
def rowLinesFrom (sep : Str) (i : Nat) : List Row → Str
  | [] => []
  | r :: rs => natToStr i ++ ". ".toList ++ rowFields sep r ++ "\n".toList
      ++ rowLinesFrom sep (i + 1) rs

def dbSuffix (n : Nat) : Str :=
  "\n... and ".toList ++ natToStr (n - 10) ++ " more results.".toList

/-- The tabular branch of `DatabaseTool.formatResults` (database-tool.js
lines 133-149): header, first 10 rows joined by a vertical bar, and a
more-results suffix when more than 10 rows exist. -/
def dbTabular (sqlQuery : Str) (results : List Row) : Str :=
  "Executed SQL: ".toList ++ sqlQuery ++ "\n\nFound ".toList ++ natToStr results.length
    ++ " result(s):\n\n".toList
    ++ rowLinesFrom " | ".toList 1 (results.take 10)
    ++ (if 10 < results.length then dbSuffix results.length else [])

/-- `DatabaseTool.formatResults` (database-tool.js lines 128-150): a single
row owning a column named count is special-cased to a scalar sentence;
everything else is rendered as a numbered table. -/
def formatResults (sqlQuery : Str) (results : List Row) : Str :=
  match results with
  | [r] =>
    match List.lookup ("count".toList) r with
    | some v => "Executed SQL: ".toList ++ sqlQuery ++ "\n\nThe result is ".toList
        ++ renderValue v ++ ".".toList
    | none => dbTabular sqlQuery results
  | _ => dbTabular sqlQuery results

def sqliteSuffix (n : Nat) : Str :=
  "\n... and ".toList ++ natToStr (n - 100) ++ " more results.".toList

/-- The tabular branch of `SqliteDataSource.formatResults` (unnamed part_005
lines 497-520): `maxResults = Math.min(results.length, 100)` rows are shown,
joined by a comma, and the suffix appears only past that cap. -/
def sqliteTabular (results : List Row) : Str :=
  "Found ".toList ++ natToStr results.length ++ " result(s):\n\n".toList
    ++ rowLinesFrom ", ".toList 1 (results.take (min results.length 100))
    ++ (if min results.length 100 < results.length then sqliteSuffix results.length else [])

/-- `SqliteDataSource.formatResults` (unnamed part_005 lines 497-520); the
`originalQuestion` parameter is accepted and unused, as in the source. -/
def sqliteFormatResults (results : List Row) (originalQuestion : Str) : Str :=
  match results with
  | [r] =>
    match List.lookup ("count".toList) r with
    | some v => "Found ".toList ++ renderValue v ++ " records.".toList
    | none => sqliteTabular results
  | _ => sqliteTabular results

/-- The write-operation blocklist test of `DatabaseTool.executeQuery`
(database-tool.js line 98): the regex `drop|delete|update|insert` with the
case-insensitive flag, i.e. a lowercased substring test for the four
alternatives.  `alter` is not among them. -/
def writeKeywordHit (sqlQuery : Str) : Bool :=
  ["drop".toList, "delete".toList, "update".toList, "insert".toList].any
    (fun k => containsL (toLowerStr sqlQuery) k)

def writeRejectMsg : Str :=
  "⚠️ Write operations (INSERT, UPDATE, DELETE, DROP) are not allowed. Only SELECT queries are permitted.".toList

/-- Outcome the backing store produces for a statement (environment oracle):
`none` when no database is available, raising, or returning rows. -/
inductive DbOutcome where
  | unavailable
  | raise (msg : Str)
  | rows (results : List Row)

/-- `DatabaseTool.executeQuery` (database-tool.js lines 95-126).  Returns the
response string together with a flag recording whether the statement was run
against the database (`db.allAsync` reached). -/
def executeQueryM (db : DbOutcome) (sqlQuery : Str) : Str × Bool :=
  if writeKeywordHit sqlQuery then
    (writeRejectMsg, false)
  else
    match db with
    | DbOutcome.unavailable => ("No database available for querying.".toList, false)
    | DbOutcome.raise msg =>
      ("❌ SQL Error: ".toList ++ msg ++ ".\nExecuted SQL: ".toList ++ sqlQuery
        ++ "\n💡 Tip: Check table/column names against the schema. Remember: this is SQLite, not MySQL/Postgres.".toList, true)
    | DbOutcome.rows results =>
      (if results.isEmpty then
        "Executed SQL: ".toList ++ sqlQuery ++ "\n\nNo results found for your query.".toList
      else formatResults sqlQuery results, true)

theorem startsWithL_refl_append (p t : Str) : startsWithL (p ++ t) p = true := by
  induction p with
  | nil => simp [startsWithL]
  | cons c cs ih => simp [startsWithL, ih]

theorem containsL_self_append (pat post : Str) : containsL (pat ++ post) pat = true := by
  match pat with
  | [] =>
    match post with
    | [] => rfl
    | p :: ps => simp [containsL, startsWithL]
  | c :: cs =>
    show containsL (c :: (cs ++ post)) (c :: cs) = true
    have := startsWithL_refl_append (c :: cs) post
    simp only [containsL, Bool.or_eq_true]
    exact Or.inl this

theorem containsL_of_middle (pre pat post : Str) :
    containsL (pre ++ (pat ++ post)) pat = true := by
  induction pre with
  | nil => simpa using containsL_self_append pat post
  | cons c cs ih => simp [containsL, ih]

/-- Claim C1 (counterexample): a query containing ALTER (and none of the four
blocked verbs) passes the write check and is run against the database, so
"rejects any query containing INSERT, UPDATE, DELETE, DROP or ALTER" fails
on the code: the regex on database-tool.js line 98 omits `alter`. -/
theorem alter_not_blocked_counterexample :
    writeKeywordHit ("ALTER TABLE Artist ADD COLUMN Bio TEXT".toList) = false
    ∧ containsL (toLowerStr ("ALTER TABLE Artist ADD COLUMN Bio TEXT".toList))
        ("alter".toList) = true
    ∧ (executeQueryM (DbOutcome.rows [[("Name".toList, Value.str ("Queen".toList))]])
        ("ALTER TABLE Artist ADD COLUMN Bio TEXT".toList)).2 = true := by decide

/-- Claim C1 (amended): `executeQuery` rejects before execution, with the
rejection message, every query containing one of the write keywords INSERT,
UPDATE, DELETE or DROP case-insensitively (as substrings); ALTER is not on
the blocklist.  The hit predicate is exactly a substring test for those four
keywords on the lowercased query. -/
theorem executeQuery_write_blocklist (db : DbOutcome) (sqlQuery : Str) :
    ((∃ k ∈ ["drop".toList, "delete".toList, "update".toList, "insert".toList],
        containsL (toLowerStr sqlQuery) k = true) →
      executeQueryM db sqlQuery = (writeRejectMsg, false))
    ∧ (writeKeywordHit sqlQuery = true ↔
        ∃ k ∈ ["drop".toList, "delete".toList, "update".toList, "insert".toList],
          containsL (toLowerStr sqlQuery) k = true) := by
  have hiff : writeKeywordHit sqlQuery = true ↔
      ∃ k ∈ ["drop".toList, "delete".toList, "update".toList, "insert".toList],
        containsL (toLowerStr sqlQuery) k = true := by
    simp [writeKeywordHit, List.any_eq_true]
  refine ⟨?_, hiff⟩
  intro hex
  have hk : writeKeywordHit sqlQuery = true := hiff.mpr hex
  simp [executeQueryM, hk]

theorem executeQuery_write_blocklist_witness :
    (∃ k ∈ ["drop".toList, "delete".toList, "update".toList, "insert".toList],
        containsL (toLowerStr ("DROP TABLE Artist".toList)) k = true)
    ∧ executeQueryM (DbOutcome.rows []) ("DROP TABLE Artist".toList)
        = (writeRejectMsg, false) :=
  ⟨by decide,
    (executeQuery_write_blocklist (DbOutcome.rows []) ("DROP TABLE Artist".toList)).1
      (by decide)⟩

/-- Claim C6 (counterexample): a result set of exactly one row with exactly
one numeric column — named total, as `SELECT SUM(Total) as total` would
produce — is not rendered as a scalar sentence: the special case on
database-tool.js line 129 tests for a column literally named count, so this
single-row single-numeric-column result is rendered as a tabular listing. -/
theorem format_scalar_counterexample :
    containsL
      (formatResults ("SELECT SUM(Total) as total FROM Invoice".toList)
        [[("total".toList, Value.num 42)]])
      ("The result is".toList) = false
    ∧ formatResults ("SELECT SUM(Total) as total FROM Invoice".toList)
        [[("total".toList, Value.num 42)]]
      = "Executed SQL: SELECT SUM(Total) as total FROM Invoice\n\nFound 1 result(s):\n\n1. total: 42\n".toList := by
  decide

/-- Claim C6 (amended): the scalar special case fires exactly on a result set
of one row having a column named count (as the tool instructs the model to
alias aggregates); the output is then the single sentence
`The result is <value>.` containing that scalar, not a tabular listing. -/
theorem formatResults_count_scalar (sqlQuery : Str) (r : Row) (v : Value)
    (h : List.lookup ("count".toList) r = some v) :
    formatResults sqlQuery [r] =
      "Executed SQL: ".toList ++ sqlQuery ++ "\n\nThe result is ".toList
        ++ renderValue v ++ ".".toList
    ∧ ∃ pre post, formatResults sqlQuery [r] = pre ++ renderValue v ++ post := by
  have h' : List.lookup ['c', 'o', 'u', 'n', 't'] r = some v := h
  have heq : formatResults sqlQuery [r] =
      "Executed SQL: ".toList ++ sqlQuery ++ "\n\nThe result is ".toList
        ++ renderValue v ++ ".".toList := by
    simp [formatResults, h']
  refine ⟨heq, "Executed SQL: ".toList ++ sqlQuery ++ "\n\nThe result is ".toList,
    ".".toList, ?_⟩
  rw [heq]

theorem formatResults_count_scalar_witness :
    List.lookup ("count".toList) [("count".toList, Value.num 275)] = some (Value.num 275)
    ∧ formatResults ("SELECT COUNT(*) as count FROM Artist".toList)
        [[("count".toList, Value.num 275)]]
      = "Executed SQL: SELECT COUNT(*) as count FROM Artist\n\nThe result is 275.".toList :=
  ⟨by decide, by
    have h := (formatResults_count_scalar ("SELECT COUNT(*) as count FROM Artist".toList)
      [("count".toList, Value.num 275)] (Value.num 275) (by decide)).1
    rw [h]
    decide⟩

/-- Claim C8 (counterexample): the `SqliteDataSource.formatResults` variant
caps displayed rows at 100, not 10: on an 11-row result set it renders all
11 numbered rows and no more-results suffix. -/
theorem sqlite_cap_counterexample :
    sqliteFormatResults (List.replicate 11 [("Name".toList, Value.str ("A".toList))]) []
      = "Found 11 result(s):\n\n1. Name: A\n2. Name: A\n3. Name: A\n4. Name: A\n5. Name: A\n6. Name: A\n7. Name: A\n8. Name: A\n9. Name: A\n10. Name: A\n11. Name: A\n".toList
    ∧ containsL
        (sqliteFormatResults (List.replicate 11 [("Name".toList, Value.str ("A".toList))]) [])
        ("more results".toList) = false
    ∧ containsL
        (sqliteFormatResults (List.replicate 11 [("Name".toList, Value.str ("A".toList))]) [])
        ("11. Name: A".toList) = true := by decide

/-- Claim C8 (amended): `DatabaseTool.formatResults` displays at most 10 rows
and, when the result set has more than 10 rows, ends with the suffix naming
the number of remaining rows; the `SqliteDataSource.formatResults` variant
displays at most 100 rows and appends its remaining-rows suffix only past
100. -/
theorem formatters_row_caps (sqlQuery : Str) (results : List Row)
    (hne : results ≠ []) :
    (results.take 10).length ≤ 10
    ∧ (10 < results.length →
        ∃ pre, formatResults sqlQuery results = pre ++ dbSuffix results.length)
    ∧ (results.take (min results.length 100)).length ≤ 100
    ∧ (100 < results.length →
        ∃ pre, sqliteFormatResults results sqlQuery = pre ++ sqliteSuffix results.length) := by
  refine ⟨?_, ?_, ?_, ?_⟩
  · simp [List.length_take]
  · intro h10
    rcases results with _ | ⟨a, _ | ⟨b, tb⟩⟩
    · exact absurd rfl hne
    · simp at h10
    · refine ⟨"Executed SQL: ".toList ++ sqlQuery ++ "\n\nFound ".toList
        ++ natToStr (a :: b :: tb).length ++ " result(s):\n\n".toList
        ++ rowLinesFrom " | ".toList 1 ((a :: b :: tb).take 10), ?_⟩
      have h10' : 10 < (a :: b :: tb).length := h10
      show dbTabular sqlQuery (a :: b :: tb) = _
      unfold dbTabular
      rw [if_pos h10']
  · simp [List.length_take]
  · intro h100
    rcases results with _ | ⟨a, _ | ⟨b, tb⟩⟩
    · exact absurd rfl hne
    · simp at h100
    · refine ⟨"Found ".toList ++ natToStr (a :: b :: tb).length ++ " result(s):\n\n".toList
        ++ rowLinesFrom ", ".toList 1 ((a :: b :: tb).take (min (a :: b :: tb).length 100)), ?_⟩
      have hmin : min (a :: b :: tb).length 100 < (a :: b :: tb).length := by
        simp only [min_lt_iff]
        omega
      show sqliteTabular (a :: b :: tb) = _
      unfold sqliteTabular
      rw [if_pos hmin]

theorem formatters_row_caps_witness :
    (List.replicate 12 ([("Name".toList, Value.num 1)] : Row)) ≠ []
    ∧ (10 < (List.replicate 12 ([("Name".toList, Value.num 1)] : Row)).length)
    ∧ ∃ pre, formatResults ("SELECT Name FROM Artist".toList)
        (List.replicate 12 ([("Name".toList, Value.num 1)] : Row))
      = pre ++ dbSuffix (List.replicate 12 ([("Name".toList, Value.num 1)] : Row)).length :=
  ⟨by decide, by decide,
    (formatters_row_caps ("SELECT Name FROM Artist".toList)
      (List.replicate 12 ([("Name".toList, Value.num 1)] : Row)) (by decide)).2.1
      (by decide)⟩

/-! ## Agent loop — `src/src/agent.js`

`MultiSourceAgent.processMessage` wraps the whole turn in a try/catch: the
LangGraph invocation (the model plus tool dispatch) is the environment and
is modelled as an oracle that either yields the final message list of the
graph run or raises with an error message.  Conversation-history entries are
`Option Message` so that the JS value `undefined` (pushed verbatim when the
returned message list is empty) is representable. -/

inductive Message where
  | human (content : Str)
  | ai (content : Str)
  | tool (content : Str)
deriving DecidableEq, Repr

def Message.content : Message → Str
  | Message.human c => c
  | Message.ai c => c
  | Message.tool c => c

/-- Outcome of `this.graph.invoke` (environment oracle): the accumulated
message list of the run, or a raised error. -/
inductive InvokeResult where
  | ok (msgs : List Message)
  | err (msg : Str)
deriving DecidableEq, Repr

def apostrophe : Char := Char.ofNat 39

def apologyPre : Str :=
  "I".toList ++ [apostrophe]
    ++ "m sorry, I encountered an error while processing your request: ".toList

def undefinedContentErr : Str :=
  "Cannot read properties of undefined (reading ".toList ++ [apostrophe]
    ++ "content".toList ++ [apostrophe] ++ ")".toList

/-- `MultiSourceAgent.processMessage` (agent.js lines 130-173): run the graph,
take the last message, append the user turn and that last message to the
conversation history, and return its content; any raise inside the try block
is caught and rendered with the apology prefix.  When the graph result is
empty, JS pushes `undefined` onto the history and then raises reading
`.content`, which the same catch turns into the apology string. -/
def processMessage (conversationHistory : List (Option Message)) (userInput : Str)
    (invoke : InvokeResult) : Str × List (Option Message) :=
  match invoke with
  | InvokeResult.err e => (apologyPre ++ e, conversationHistory)
  | InvokeResult.ok msgs =>
    match msgs.getLast? with
    | some last =>
      (last.content, conversationHistory ++ [some (Message.human userInput), some last])
    | none =>
      (apologyPre ++ undefinedContentErr,
        conversationHistory ++ [some (Message.human userInput), none])

/-- Claim C5 (confirmed): `processMessage` always returns a string and never
throws: a raise from the graph invocation is caught and rendered as the
apology-prefixed message, and a successful invocation returns the content of
the final message (or, for the degenerate empty result, the apology-prefixed
caught type error). -/
theorem processMessage_never_throws (hist : List (Option Message)) (input : Str)
    (invoke : InvokeResult) :
    (∀ e, invoke = InvokeResult.err e →
      processMessage hist input invoke = (apologyPre ++ e, hist))
    ∧ (∀ msgs, invoke = InvokeResult.ok msgs →
        (∃ last, msgs.getLast? = some last
          ∧ (processMessage hist input invoke).1 = last.content)
        ∨ (msgs = []
          ∧ (processMessage hist input invoke).1 = apologyPre ++ undefinedContentErr)) := by
  constructor
  · rintro e rfl
    rfl
  · rintro msgs rfl
    cases hlast : msgs.getLast? with
    | some last =>
      exact Or.inl ⟨last, rfl, by simp [processMessage, hlast]⟩
    | none =>
      refine Or.inr ⟨List.getLast?_eq_none_iff.mp hlast, by simp [processMessage, hlast]⟩

theorem processMessage_never_throws_witness :
    processMessage [] ("hello".toList) (InvokeResult.err ("rate limited".toList))
      = (apologyPre ++ "rate limited".toList, []) :=
  (processMessage_never_throws [] ("hello".toList)
    (InvokeResult.err ("rate limited".toList))).1 ("rate limited".toList) rfl

/-- Claim C10 (confirmed): per turn the history is mutated atomically: on a
successful run exactly two turns are appended — the user input followed by
the final message, with none of the intermediate tool messages of the run
persisted — and on the caught-error path (apology returned) the history is
returned unchanged. -/
theorem processMessage_history_atomic (hist : List (Option Message)) (input : Str)
    (msgs : List Message) (last : Message) (h : msgs.getLast? = some last) :
    processMessage hist input (InvokeResult.ok msgs)
      = (last.content, hist ++ [some (Message.human input), some last])
    ∧ (∀ e, (processMessage hist input (InvokeResult.err e)).2 = hist)
    ∧ (processMessage hist input (InvokeResult.ok msgs)).2.length = hist.length + 2 := by
  refine ⟨by simp [processMessage, h], fun e => rfl, by simp [processMessage, h]⟩

theorem processMessage_history_atomic_witness :
    ([Message.tool ("rows".toList), Message.ai ("done".toList)].getLast?
      = some (Message.ai ("done".toList)))
    ∧ processMessage [] ("list artists".toList)
        (InvokeResult.ok [Message.tool ("rows".toList), Message.ai ("done".toList)])
      = ("done".toList,
          [some (Message.human ("list artists".toList)), some (Message.ai ("done".toList))]) :=
  ⟨by decide,
    (processMessage_history_atomic [] ("list artists".toList)
      [Message.tool ("rows".toList), Message.ai ("done".toList)]
      (Message.ai ("done".toList)) (by decide)).1⟩

/-! ## Corpus Search Provider — `src/src/datasources/document.js`

`findMatches` splits a document into sections at each position where `##`
begins (a lookahead split that keeps the delimiter), scores each section by
summed non-overlapping term frequency over the lowercased section plus a
fixed bonus of 2 when the section carries a heading marker, keeps the
positive-score sections, sorts them by score descending — JS
`Array.prototype.sort` is stable, embedded here as insertion sort with a
non-strict descending relation, which produces exactly the stable sorted
permutation — and returns the first three.  `search` is parameterized by the
extracted search-term list (the output of `extractSearchTerms`); the ranking
and presentation properties below hold for every term list. -/

structure MatchRes where
  content : Str
  score : Nat
  matchedTerms : List Str
deriving DecidableEq, Repr

/-- Non-overlapping occurrence counting, structurally: after a match the next
`skip` characters are consumed without testing, so matches never overlap. -/
def countOccurAux (pat : Str) : Str → Nat → Nat
  | [], _ => 0
  | c :: rest, skip =>
    if 0 < skip then countOccurAux pat rest (skip - 1)
    else if pat.isEmpty then 0
    else if startsWithL (c :: rest) pat then
      1 + countOccurAux pat rest (pat.length - 1)
    else countOccurAux pat rest 0

/-- Non-overlapping occurrence count of `pat`, as a JS global regex match of
the escaped literal term computes it.  The source never passes an empty
term; the empty-pattern guard only ensures totality. -/
def countOccur (pat : Str) (s : Str) : Nat := countOccurAux pat s 0

/-- `content.split` on a lookahead for `##`: a new chunk begins at every
position where `##` starts; the zero-width match at position 0 produces no
leading empty chunk. -/
def splitSectionsGo (cur : Str) : Str → List Str
  | [] => [cur.reverse]
  | c :: cs =>
    if startsWithL (c :: cs) ("##".toList) && !cur.isEmpty then
      cur.reverse :: splitSectionsGo [c] cs
    else
      splitSectionsGo (c :: cur) cs

def splitSections (content : Str) : List Str := splitSectionsGo [] content

/-- Section score: summed term counts over the lowercased section plus 2 when
the section carries a heading marker (`findMatches` loop body). -/
def sectionScore (searchTerms : List Str) (sec : Str) : Nat :=
  (searchTerms.foldl (fun acc t => acc + countOccur t (toLowerStr sec)) 0)
    + (if containsL sec ("###".toList) || containsL sec ("##".toList) then 2 else 0)

/-- The terms recorded for a section: those with a positive count, in search
order. -/
def sectionMatchedTerms (searchTerms : List Str) (sec : Str) : List Str :=
  searchTerms.filter (fun t => decide (0 < countOccur t (toLowerStr sec)))

/-- The match list before sorting: positive-score sections in document order,
carrying the trimmed section text (`findMatches` builds `matches` this way). -/
def candidateMatches (content : Str) (searchTerms : List Str) : List MatchRes :=
  (splitSections content).filterMap (fun sec =>
    let score := sectionScore searchTerms sec
    if 0 < score then
      some ⟨trimStr sec, score, sectionMatchedTerms searchTerms sec⟩
    else none)

/-- The comparator `(a, b) => b.score - a.score` as the non-strict descending
order relation of the stable sort. -/
def mr (a b : MatchRes) : Prop := b.score ≤ a.score

instance : DecidableRel mr := fun a b => Nat.decLe b.score a.score

instance : IsTotal MatchRes mr := ⟨fun a b => le_total b.score a.score⟩

instance : IsTrans MatchRes mr := ⟨fun _ _ _ hab hbc => le_trans hbc hab⟩

/-- `DocumentDataSource.findMatches` (document.js lines 90-127): stable sort
of the candidate matches by score descending, then the first three. -/
def findMatches (content : Str) (searchTerms : List Str) : List MatchRes :=
  ((candidateMatches content searchTerms).insertionSort mr).take 3

/-- `createPreview` (document.js lines 157-176): trim, truncate past 500
characters at the last sentence end when it falls late enough, and mark the
cut.  The markdown-stripping replace chain is the identity on the content
handled here: the regex literals in the shipped file spell the header and
emphasis patterns with escaped backslashes, so they only match text
containing backslashes. -/
def createPreview (content : Str) : Str :=
  let preview := trimStr content
  if 500 < preview.length then
    let p1 := preview.take 500
    (match p1.reverse.findIdx? (fun c => c == '.') with
     | some j =>
       let lastSentence := 500 - 1 - j
       if 350 < lastSentence then p1.take (lastSentence + 1) else p1
     | none => p1) ++ "...".toList
  else preview

/-- One presented match inside `formatSearchResults`: preview line, matched
terms line when present, separator. -/
def matchBlock (m : MatchRes) : Str :=
  "\n".toList ++ createPreview m.content ++ "\n".toList
    ++ (if 0 < m.matchedTerms.length then
          "*Matched terms: ".toList ++ joinSep ", ".toList m.matchedTerms ++ "*\n".toList
        else [])
    ++ "\n---\n".toList

/-- One document block of `formatSearchResults`: heading plus the first two
matches of that document (`matches.slice(0, 2)`). -/
def docBlock (docName : Str) (ms : List MatchRes) : Str :=
  "📄 **".toList ++ docName ++ "**:\n".toList
    ++ catStr ((ms.take 2).map matchBlock)

/-- `totalMatches` as counted by the presentation loop: per document, the
length of `matches.slice(0, 2)`. -/
def totalMatchCount (results : List (Str × List MatchRes)) : Nat :=
  (results.map (fun p => min 2 p.2.length)).sum

def noSpecificMatchesMsg : Str :=
  "No specific matches found, but I have access to documents about economics. Please ask more specific questions about economic theories, economists, or economic concepts.".toList

/-- `formatSearchResults` (document.js lines 129-155). -/
def formatSearchResults (results : List (Str × List MatchRes)) : Str :=
  if totalMatchCount results = 0 then noSpecificMatchesMsg
  else
    "Found relevant information in ".toList ++ natToStr results.length
      ++ " document(s):\n\n".toList
      ++ catStr (results.map (fun p => docBlock p.1 p.2))
      ++ "\n*Found ".toList ++ natToStr (totalMatchCount results)
      ++ " relevant section(s) across ".toList ++ natToStr results.length
      ++ " document(s).*".toList

/-- The per-document results map built inside `search` (document.js lines
50-57): documents whose `findMatches` output is nonempty, keyed in document
order. -/
def searchResultsOf (docs : List (Str × Str)) (searchTerms : List Str) :
    List (Str × List MatchRes) :=
  docs.filterMap (fun d =>
    let ms := findMatches d.2 searchTerms
    if 0 < ms.length then some (d.1, ms) else none)

def noRelevantMsg : Str :=
  "No relevant information found in the documents. Please try rephrasing your question or asking about economics-related topics.".toList

/-- `DocumentDataSource.search` (document.js lines 44-64), parameterized by
the extracted term list. -/
def searchDocs (docs : List (Str × Str)) (searchTerms : List Str) : Str :=
  let results := searchResultsOf docs searchTerms
  if results.length = 0 then noRelevantMsg else formatSearchResults results

theorem filter_orderedInsert (s : Nat) (a : MatchRes) (l : List MatchRes) :
    (l.orderedInsert mr a).filter (fun m => m.score == s)
      = if a.score = s then a :: l.filter (fun m => m.score == s)
        else l.filter (fun m => m.score == s) := by
  induction l with
  | nil =>
    by_cases ha : a.score = s
    · simp [List.orderedInsert, List.filter_cons, ha]
    · simp [List.orderedInsert, List.filter_cons, ha]
  | cons b bl ih =>
    by_cases hab : mr a b
    · simp only [List.orderedInsert, if_pos hab]
      by_cases ha : a.score = s
      · simp [List.filter_cons, ha]
      · simp [List.filter_cons, ha]
    · simp only [List.orderedInsert, if_neg hab]
      have hb_gt : a.score < b.score := by
        simp only [mr, not_le] at hab
        exact hab
      by_cases ha : a.score = s
      · have hb_ne : ¬ b.score = s := by omega
        simp [List.filter_cons, ha, hb_ne, ih]
      · simp [List.filter_cons, ha, ih]

theorem filter_insertionSort (s : Nat) (l : List MatchRes) :
    (l.insertionSort mr).filter (fun m => m.score == s)
      = l.filter (fun m => m.score == s) := by
  induction l with
  | nil => rfl
  | cons a al ih =>
    simp only [List.insertionSort]
    rw [filter_orderedInsert]
    by_cases ha : a.score = s
    · simp [List.filter_cons, ha, ih]
    · simp [List.filter_cons, ha, ih]

theorem catStr_mem_decomp {α : Type} (f : α → Str) (l : List α) (x : α) (hx : x ∈ l) :
    ∃ pre post, catStr (l.map f) = pre ++ f x ++ post := by
  rcases List.append_of_mem hx with ⟨l1, l2, rfl⟩
  refine ⟨catStr (l1.map f), catStr (l2.map f), ?_⟩
  simp [List.map_append, catStr_append, catStr, List.append_assoc]

/-- Claim C9 (confirmed): `findMatches` returns, per document, at most the
three highest-scoring sections ordered by score descending with equal-score
sections kept in their original document order (clauses one to four:
bounded length, descending order, the per-score fibers are prefixes of the
document-order candidate fibers, and every returned section scores at least
as high as every candidate left out); `search` builds its result map from
`findMatches` per document (clause five); and the formatted output presents,
for every document of the result map, each of the first two of those
top-scoring sections (clause six). -/
theorem findMatches_top3 (content : Str) (searchTerms : List Str)
    (docs : List (Str × Str)) (results : List (Str × List MatchRes)) :
    (findMatches content searchTerms).length ≤ 3
    ∧ List.Pairwise mr (findMatches content searchTerms)
    ∧ (∀ s : Nat, ∃ rest,
        (findMatches content searchTerms).filter (fun m => m.score == s) ++ rest
          = (candidateMatches content searchTerms).filter (fun m => m.score == s))
    ∧ (∀ x ∈ findMatches content searchTerms,
        ∀ y ∈ candidateMatches content searchTerms,
          y ∉ findMatches content searchTerms → y.score ≤ x.score)
    ∧ (∀ nm ms, (nm, ms) ∈ searchResultsOf docs searchTerms →
        ∃ c, (nm, c) ∈ docs ∧ ms = findMatches c searchTerms)
    ∧ (∀ nm ms m, (nm, ms) ∈ results → m ∈ ms.take 2 →
        ∃ pre post, formatSearchResults results = pre ++ matchBlock m ++ post) := by
  have hsorted : List.Sorted mr ((candidateMatches content searchTerms).insertionSort mr) :=
    List.sorted_insertionSort mr (candidateMatches content searchTerms)
  refine ⟨?_, ?_, ?_, ?_, ?_, ?_⟩
  · exact le_trans (List.length_take_le 3 _) le_rfl
  · exact List.Pairwise.sublist (List.take_sublist 3 _) hsorted
  · intro s
    refine ⟨(((candidateMatches content searchTerms).insertionSort mr).drop 3).filter
      (fun m => m.score == s), ?_⟩
    rw [findMatches, ← List.filter_append, List.take_append_drop, filter_insertionSort]
  · intro x hx y hy hyn
    have hy' : y ∈ (candidateMatches content searchTerms).insertionSort mr :=
      (List.mem_insertionSort mr).mpr hy
    rw [← List.take_append_drop 3 ((candidateMatches content searchTerms).insertionSort mr)]
      at hy'
    rcases List.mem_append.mp hy' with hyt | hyd
    · exact absurd hyt hyn
    · exact hsorted.rel_of_mem_take_of_mem_drop hx hyd
  · intro nm ms h
    rcases List.mem_filterMap.mp h with ⟨d, hd, hsome⟩
    by_cases hlen : 0 < (findMatches d.2 searchTerms).length
    · rw [if_pos hlen] at hsome
      have hpair : (d.1, findMatches d.2 searchTerms) = (nm, ms) := Option.some.inj hsome
      have h1 : d.1 = nm := congrArg Prod.fst hpair
      have h2 : findMatches d.2 searchTerms = ms := congrArg Prod.snd hpair
      refine ⟨d.2, ?_, h2.symm⟩
      rw [← h1]
      simpa using hd
    · rw [if_neg hlen] at hsome
      exact Option.noConfusion hsome
  · intro nm ms m hmem hm2
    have hmin : 0 < min 2 ms.length := by
      have h1 : 0 < (ms.take 2).length :=
        List.length_pos.mpr (List.ne_nil_of_mem hm2)
      simpa [List.length_take] using h1
    have hpos : 0 < totalMatchCount results := by
      have h2 : min 2 ms.length ∈ results.map (fun p => min 2 p.2.length) :=
        List.mem_map.mpr ⟨(nm, ms), hmem, rfl⟩
      calc 0 < min 2 ms.length := hmin
        _ ≤ (results.map (fun p => min 2 p.2.length)).sum :=
            List.single_le_sum (fun x _ => Nat.zero_le x) _ h2
    obtain ⟨p1, q1, hdoc⟩ :=
      catStr_mem_decomp (fun p => docBlock p.1 p.2) results (nm, ms) hmem
    obtain ⟨p2, q2, hmatch⟩ := catStr_mem_decomp matchBlock (ms.take 2) m hm2
    refine ⟨("Found relevant information in ".toList ++ natToStr results.length
        ++ " document(s):\n\n".toList) ++ p1
        ++ ("📄 **".toList ++ nm ++ "**:\n".toList) ++ p2,
      q2 ++ (q1 ++ ("\n*Found ".toList ++ natToStr (totalMatchCount results)
        ++ " relevant section(s) across ".toList ++ natToStr results.length
        ++ " document(s).*".toList)), ?_⟩
    rw [formatSearchResults, if_neg (Nat.pos_iff_ne_zero.mp hpos)]
    rw [hdoc]
    rw [show docBlock (nm, ms).1 (nm, ms).2
        = "📄 **".toList ++ nm ++ "**:\n".toList ++ catStr ((ms.take 2).map matchBlock)
      from rfl] at *
    rw [hmatch]
    simp [List.append_assoc]

theorem findMatches_top3_witness :
    (findMatches
        ("Intro text marx\n## Section One\nmarx marx\n## Section Two\nmarx here".toList)
        ["marx".toList]).length ≤ 3
    ∧ ∃ pre post,
        formatSearchResults
          [("essay".toList,
            findMatches
              ("Intro text marx\n## Section One\nmarx marx\n## Section Two\nmarx here".toList)
              ["marx".toList])]
          = pre
            ++ matchBlock
              ((findMatches
                ("Intro text marx\n## Section One\nmarx marx\n## Section Two\nmarx here".toList)
                ["marx".toList]).headD ⟨[], 0, []⟩)
            ++ post :=
  ⟨(findMatches_top3
      ("Intro text marx\n## Section One\nmarx marx\n## Section Two\nmarx here".toList)
      ["marx".toList] [] []).1,
   (findMatches_top3
      ("Intro text marx\n## Section One\nmarx marx\n## Section Two\nmarx here".toList)
      ["marx".toList] []
      [("essay".toList,
        findMatches
          ("Intro text marx\n## Section One\nmarx marx\n## Section Two\nmarx here".toList)
          ["marx".toList])]).2.2.2.2.2
      ("essay".toList)
      (findMatches
        ("Intro text marx\n## Section One\nmarx marx\n## Section Two\nmarx here".toList)
        ["marx".toList])
      ((findMatches
        ("Intro text marx\n## Section One\nmarx marx\n## Section Two\nmarx here".toList)
        ["marx".toList]).headD ⟨[], 0, []⟩)
      (List.mem_singleton.mpr rfl)
      (by decide)⟩
